import Mathlib

/-!
Verification of the CSV schema-standardization pipeline:
a shallow embedding of the configuration loader (`utils/config.py`),
table I/O (`utils/file.py`), the schema standardizer and batch pipeline
(`process_data.py`), and the feature/target split (`utils/processing.py`),
together with theorems settling the specified properties.

Tables are modelled column-oriented, as the spec's data model describes:
an ordered row index plus an ordered list of named columns.  Cell values
are a sum of the scalar kinds the pipeline moves around (missing value,
integer, string).  The filesystem is modelled as a finite map from
directory paths to entry listings plus a finite map from file paths to
the outcome `pd.read_csv` would have on that file.
-/

/-- `true` when the first character list is an initial segment of the
second; helper for the string tests below. -/
def listStartsWith : List Char → List Char → Bool
  | [], _ => true
  | _ :: _, [] => false
  | a :: as, b :: bs => a == b && listStartsWith as bs

/-- `s.endswith(pat)`, computed on the character lists so that concrete
instances reduce inside the kernel. -/
def strEndsWith (s pat : String) : Bool :=
  listStartsWith pat.data.reverse s.data.reverse

/-- Accumulating worker for `splitDots`. -/
def splitDotsAux : List Char → List Char → List String
  | [], acc => [String.mk acc.reverse]
  | c :: cs, acc =>
      if c == '.' then String.mk acc.reverse :: splitDotsAux cs []
      else splitDotsAux cs (c :: acc)

/-- `key.split(".")`: the dot-separated segments of a key, with Python's
convention that the empty string splits to `[""]`. -/
def splitDots (s : String) : List String := splitDotsAux s.data []

/-- A single cell of a table: missing (NaN), an integer, or a string. -/
inductive Cell where
  | nan
  | intVal (n : Int)
  | strVal (s : String)
deriving DecidableEq, Repr

/-- An in-memory table: an ordered row index and an ordered sequence of
named columns. Mirrors the pandas `DataFrame` surface the code uses. -/
structure Table where
  index : List Nat
  cols : List (String × List Cell)
deriving DecidableEq, Repr

/-- Number of rows of a table (the length of its row index). -/
def Table.nrows (t : Table) : Nat := t.index.length

/-- Ordered list of column names (`df.columns`). -/
def Table.colNames (t : Table) : List String := t.cols.map Prod.fst

/-- Look up the value list of a named column, if present (`df[c]`'s data). -/
def Table.getCol? (t : Table) (c : String) : Option (List Cell) :=
  t.cols.lookup c

/-- The Python exception kinds raised by this code base, with their
message payloads. `missingColumns` stands for the
`ValueError("Missing required columns: ...")` carrying the missing set. -/
inductive PyErr where
  | fileNotFoundError (msg : String)
  | notADirectoryError (msg : String)
  | emptyDataError (msg : String)
  | parserError (msg : String)
  | keyError (msg : String)
  | missingColumns (missing : List String)
deriving DecidableEq, Repr

/-- Outcome `pd.read_csv` would produce on a stored file: a parsed table,
an empty-file error, or a parse error. -/
inductive LoadOutcome where
  | ok (t : Table)
  | empty
  | parseFail
deriving DecidableEq, Repr

/-- Shallow model of the filesystem the I/O layer sees: directory paths
with their entry listings, and file paths with their CSV-load outcomes. -/
structure FileSystem where
  dirs : List (String × List String)
  files : List (String × LoadOutcome)

/-- `os.path.exists p`: `p` is a known directory or a known file. -/
def pathExists (fs : FileSystem) (p : String) : Bool :=
  (fs.dirs.lookup p).isSome || (fs.files.lookup p).isSome

/-- `os.path.isdir p`. -/
def isDir (fs : FileSystem) (p : String) : Bool :=
  (fs.dirs.lookup p).isSome

/-- `os.path.join dir filename` (dir paths in the model carry no trailing
separator). -/
def joinPath (dir filename : String) : String := dir ++ "/" ++ filename

/-- `load_csv(path)` from `utils/file.py`: read the CSV at `path`,
re-raising each pandas failure with the offending path in the message. -/
def load_csv (fs : FileSystem) (path : String) : Except PyErr Table :=
  match fs.files.lookup path with
  | none => .error (.fileNotFoundError ("File not found: " ++ path))
  | some (.ok t) => .ok t
  | some .empty => .error (.emptyDataError ("File is empty: " ++ path))
  | some .parseFail => .error (.parserError ("Parsing error in file: " ++ path))

/-- `get_dataframe(filename, dir)` from `utils/file.py`: directory
existence check, then directory-kind check, then delegate to `load_csv`
on the joined path. -/
def get_dataframe (fs : FileSystem) (filename dir : String) :
    Except PyErr Table :=
  if pathExists fs dir = false then
    .error (.fileNotFoundError ("Directory not found: " ++ dir))
  else if isDir fs dir = false then
    .error (.notADirectoryError ("Path is not a directory: " ++ dir))
  else
    load_csv fs (joinPath dir filename)

/-- One step of the accumulation loop in `get_all_dataframes`: a `.csv`
entry that loads is appended, a failing one is skipped with a warning. -/
def collectStep (fs : FileSystem) (dir : String) (acc : List Table)
    (f : String) : List Table :=
  if strEndsWith f ".csv" then
    match load_csv fs (joinPath dir f) with
    | .ok df => acc ++ [df]
    | .error _ => acc
  else acc

/-- `get_all_dataframes(dir)` from `utils/file.py`: validate the
directory, then fold over its entries collecting every `.csv` file that
parses, skipping per-file failures. -/
def get_all_dataframes (fs : FileSystem) (dir : String) :
    Except PyErr (List Table) :=
  match fs.dirs.lookup dir with
  | some entries => .ok (entries.foldl (collectStep fs dir) [])
  | none =>
      if pathExists fs dir then
        .error (.notADirectoryError ("Path is not a directory: " ++ dir))
      else
        .error (.fileNotFoundError ("Directory not found: " ++ dir))

/-- Deduplicate a list of names keeping the first occurrence of each,
matching the order in which pandas unions column labels on concat. -/
def dedupFirst (xs : List String) : List String :=
  xs.foldl (fun acc x => if acc.contains x then acc else acc ++ [x]) []

/-- The values a table contributes to column `c` of a concatenation:
its own column when present, otherwise one NaN per row. -/
def Table.colOrNaN (t : Table) (c : String) : List Cell :=
  match t.getCol? c with
  | some vs => vs
  | none => List.replicate t.nrows .nan

/-- `pd.concat(tables, ignore_index)`: row-wise concatenation with outer
column union (missing entries filled with NaN); a fresh `0..N-1` index
when `ignore_index`, otherwise the source indices back to back. -/
def concatTables (ts : List Table) (ignore_index : Bool) : Table :=
  let names := dedupFirst (ts.map Table.colNames).flatten
  { index :=
      if ignore_index then List.range (ts.map Table.nrows).sum
      else (ts.map Table.index).flatten
    cols := names.map (fun c => (c, (ts.map (fun t => t.colOrNaN c)).flatten)) }

/-- `combine_dataframes(dir, ignore_index)` from `utils/file.py`: load
all CSVs, return `none` if there are none, else their concatenation. -/
def combine_dataframes (fs : FileSystem) (dir : String)
    (ignore_index : Bool) : Except PyErr (Option Table) :=
  match get_all_dataframes fs dir with
  | .error e => .error e
  | .ok dfs =>
      if dfs.isEmpty then .ok none
      else .ok (some (concatTables dfs ignore_index))

/-- The guarded drop loop of `standardize_columns`: each name in
`drop_columns` is dropped only when currently present (absent entries
are silently ignored); `df.drop(col, axis=1)` removes the column and
keeps the row index. -/
def dropOne (acc : Table) (c : String) : Table :=
  if (acc.cols.lookup c).isSome then
    { index := acc.index, cols := acc.cols.filter (fun p => p.fst != c) }
  else acc

/-- The drop loop of `standardize_columns` folded over the drop list. -/
def dropCols (t : Table) (drops : List String) : Table :=
  drops.foldl dropOne t

/-- The new name of a column under a rename mapping: the mapped name when
the old name is a key, otherwise the name unchanged. -/
def applyRen (ren : List (String × String)) (c : String) : String :=
  match ren.lookup c with
  | some n => n
  | none => c

/-- `df.rename(columns=rename_map)`: every column label is pushed through
the mapping; values and row index are untouched. -/
def renameCols (t : Table) (ren : List (String × String)) : Table :=
  { index := t.index, cols := t.cols.map (fun p => (applyRen ren p.fst, p.snd)) }

/-- The rename step of `standardize_columns`, including its
`if rename_map:` guard (an empty mapping skips the rename entirely). -/
def renameStep (t : Table) (ren : List (String × String)) : Table :=
  if ren.isEmpty then t else renameCols t ren

/-- `df[target_columns]`: select the target columns in target order.
Only reached after the missing-columns gate, so every name is present;
the `[]` default is never taken on that path. -/
def selectCols (t : Table) (target : List String) : Table :=
  { index := t.index
    cols := target.map (fun c => (c, (t.cols.lookup c).getD [])) }

/-- `standardize_columns` from `process_data.py`: guarded drops, then the
rename mapping, then the single validation gate
`missing = set(target) - set(columns)` raising
`ValueError`/`MissingColumns` when non-empty, then select/reorder to
exactly the target schema. -/
def standardize_columns (t : Table) (drops : List String)
    (ren : List (String × String)) (target : List String) :
    Except PyErr Table :=
  let t2 := renameStep (dropCols t drops) ren
  let missing := target.filter (fun c => (t2.cols.lookup c).isNone)
  if missing.isEmpty then .ok (selectCols t2 target)
  else .error (.missingColumns missing)

/-- The local variables of `standardize_columns`: `df` (the caller's
table, never reassigned) and `df_processed` (the working copy). -/
structure StdVars where
  df : Table
  df_processed : Table

/-- Statement-by-statement embedding of `standardize_columns` with its
variable environment made explicit: `df_processed = df.copy()`, the drop
loop, the rename, the gate, the final select.  Every pandas operation
used (`copy`, `drop`, `rename`, column selection) returns a fresh frame,
so only `df_processed` is ever rebound. -/
def standardizeRun (input : Table) (drops : List String)
    (ren : List (String × String)) (target : List String) :
    StdVars × Except PyErr Table :=
  let s0 : StdVars := { df := input, df_processed := input }
  let s1 : StdVars := { df := s0.df, df_processed := dropCols s0.df_processed drops }
  let s2 : StdVars := { df := s1.df, df_processed := renameStep s1.df_processed ren }
  let missing := target.filter (fun c => (s2.df_processed.cols.lookup c).isNone)
  if missing.isEmpty then
    let s3 : StdVars := { df := s2.df, df_processed := selectCols s2.df_processed target }
    (s3, .ok s3.df_processed)
  else
    (s2, .error (.missingColumns missing))

/-- `df.drop('Outcome', axis=1)` without a presence guard: pandas raises
`KeyError` when the label is absent. -/
def dropStrict (t : Table) (c : String) : Except PyErr Table :=
  if (t.cols.lookup c).isSome then
    .ok { index := t.index, cols := t.cols.filter (fun p => p.fst != c) }
  else .error (.keyError c)

/-- `df[c]` for a single label: the column's values, or `KeyError`. -/
def getItem (t : Table) (c : String) : Except PyErr (List Cell) :=
  match t.cols.lookup c with
  | some vs => .ok vs
  | none => .error (.keyError c)

/-- `get_features_target` from `utils/processing.py`: `None` passes
through; otherwise drop the `Outcome` column for the features and select
it alone as the target. -/
def get_features_target (df : Option Table) :
    Except PyErr (Option (Table × List Cell)) :=
  match df with
  | none => .ok none
  | some t =>
      match dropStrict t "Outcome" with
      | .error e => .error e
      | .ok x =>
          match getItem t "Outcome" with
          | .error e => .error e
          | .ok y => .ok (some (x, y))

/-- A YAML value as `yaml.safe_load` yields it (mapping keys restricted
to strings, as in this repository's configuration files). -/
inductive Yaml where
  | null
  | boolVal (b : Bool)
  | intVal (n : Int)
  | strVal (s : String)
  | listVal (xs : List Yaml)
  | mapVal (kvs : List (String × Yaml))

/-- The traversal loop of `Config.get`: one iteration per key segment;
a non-mapping value, a missing key, or a key stored as YAML `null`
(indistinguishable from missing under `dict.get`) returns the default at
once, and an exhausted segment list returns the value reached. -/
def getLoop : List String → Yaml → Yaml → Yaml
  | [], v, _ => v
  | k :: ks, Yaml.mapVal kvs, dflt =>
      match kvs.lookup k with
      | none => dflt
      | some Yaml.null => dflt
      | some v => getLoop ks v dflt
  | _ :: _, _, dflt => dflt

/-- `Config.get(key, default)` from `utils/config.py`: split the key on
dots and run the traversal loop over the loaded document. -/
def configGet (cfg : Yaml) (key : String) (dflt : Yaml) : Yaml :=
  getLoop (splitDots key) cfg dflt

/-- Modelled from the spec: dotted-path resolution as the spec words it,
yielding `none` exactly when a path segment is absent (or stored null)
or a non-mapping would be indexed further, and the reached value
otherwise.  Compared against `configGet` for the refinement theorem. -/
def pathLookup : Yaml → List String → Option Yaml
  | v, [] => some v
  | Yaml.mapVal kvs, k :: ks =>
      match kvs.lookup k with
      | none => none
      | some Yaml.null => none
      | some v => pathLookup v ks
  | _, _ :: _ => none

/-- `true` exactly on YAML lists (`isinstance(result, list)`). -/
def isListY : Yaml → Bool
  | .listVal _ => true
  | _ => false

/-- `true` exactly on YAML mappings (`isinstance(result, dict)`). -/
def isMapY : Yaml → Bool
  | .mapVal _ => true
  | _ => false

/-- `true` exactly on YAML strings. -/
def isStrY : Yaml → Bool
  | .strVal _ => true
  | _ => false

/-- `Config.target_columns`: `get("columns.target", [])`, guarded by an
`isinstance(result, list)` check that falls back to `[]`. -/
def target_columns (cfg : Yaml) : List Yaml :=
  match configGet cfg "columns.target" (.listVal []) with
  | .listVal xs => xs
  | _ => []

/-- `Config.columns_to_drop`: `get("columns.drop", [])` with the same
list-kind guard. -/
def columns_to_drop (cfg : Yaml) : List Yaml :=
  match configGet cfg "columns.drop" (.listVal []) with
  | .listVal xs => xs
  | _ => []

/-- `Config.column_rename_map`: `get("columns.rename", {})` guarded by
`isinstance(result, dict)` with fallback `{}`. -/
def column_rename_map (cfg : Yaml) : List (String × Yaml) :=
  match configGet cfg "columns.rename" (.mapVal []) with
  | .mapVal kvs => kvs
  | _ => []

/-- The configuration fields the batch pipeline reads, as the typed
values the `Config` accessors hand to `process_data.py`. -/
structure Cfg where
  raw_data_dir : String
  drop_list : List String
  rename_map : List (String × String)
  target_list : List String
  continue_on_error : Bool

/-- `os.listdir dir`: the entry listing, `FileNotFoundError` when the
path does not exist, `NotADirectoryError` when it is a file. -/
def listdir (fs : FileSystem) (dir : String) :
    Except PyErr (List String) :=
  match fs.dirs.lookup dir with
  | some entries => .ok entries
  | none =>
      if pathExists fs dir then
        .error (.notADirectoryError ("Not a directory: " ++ dir))
      else
        .error (.fileNotFoundError ("Directory not found: " ++ dir))

/-- `process_dataset` from `process_data.py`: load the file, standardize
it, write the result (the write itself always succeeds in the model);
the function's own `except` block swallows any failure when
`continue_on_error` is true and re-raises it otherwise. -/
def process_dataset (fs : FileSystem) (cfg : Cfg) (input_file : String) :
    Except PyErr Unit :=
  let body : Except PyErr Unit :=
    match get_dataframe fs input_file cfg.raw_data_dir with
    | .error e => .error e
    | .ok df =>
        match standardize_columns df cfg.drop_list cfg.rename_map
            cfg.target_list with
        | .error e => .error e
        | .ok _ => .ok ()
  match body with
  | .ok _ => .ok ()
  | .error e => if cfg.continue_on_error then .ok () else .error e

/-- The per-file loop of `process_all_datasets`, threading the
`successful` and `failed` counters; an exception from `process_dataset`
is counted as a failure and re-raised when `continue_on_error` is
false. -/
def batchLoop (fs : FileSystem) (cfg : Cfg) :
    List String → Nat → Nat → Except PyErr (Nat × Nat)
  | [], s, f => .ok (s, f)
  | file :: rest, s, f =>
      match process_dataset fs cfg file with
      | .ok _ => batchLoop fs cfg rest (s + 1) f
      | .error e =>
          if cfg.continue_on_error then batchLoop fs cfg rest s (f + 1)
          else .error e

/-- `process_all_datasets` from `process_data.py`: enumerate `.csv`
entries of the raw-data directory, return early (no summary) when there
are none, run the counting loop, and log the summary with the final
counters.  `some (s, f)` is the summary line `Success: s, Failed: f`;
`none` means the run ended without logging a summary.  The outermost
`except` swallows an escaping failure when `continue_on_error` is true
and re-raises it otherwise. -/
def process_all_datasets (fs : FileSystem) (cfg : Cfg) :
    Except PyErr (Option (Nat × Nat)) :=
  match listdir fs cfg.raw_data_dir with
  | .error e => if cfg.continue_on_error then .ok none else .error e
  | .ok entries =>
      let csv_files := entries.filter (fun f => strEndsWith f ".csv")
      if csv_files.isEmpty then .ok none
      else
        match batchLoop fs cfg csv_files 0 0 with
        | .ok p => .ok (some p)
        | .error e => if cfg.continue_on_error then .ok none else .error e

/-! Concrete instances used by the witness and counterexample theorems. -/

/-- The spec's concrete standardization input
`{A:[1,2], B:[3,4], C:[5,6]}`. -/
def exTable : Table :=
  { index := [0, 1]
    cols := [("A", [.intVal 1, .intVal 2]), ("B", [.intVal 3, .intVal 4]),
             ("C", [.intVal 5, .intVal 6])] }

/-- A minimal one-row table with a single column `A`. -/
def unitTable : Table := { index := [0], cols := [("A", [.intVal 1])] }

/-- Raw-data directory with three CSV entries of which `b.csv` is
malformed: the spec's batch scenario. -/
def fsBatch : FileSystem :=
  { dirs := [("raw", ["a.csv", "b.csv", "c.csv"])]
    files := [("raw/a.csv", .ok unitTable), ("raw/b.csv", .parseFail),
              ("raw/c.csv", .ok unitTable)] }

/-- Batch configuration with `continue_on_error = True` whose target
schema matches `unitTable`. -/
def cfgBatch : Cfg :=
  { raw_data_dir := "raw", drop_list := [], rename_map := [],
    target_list := ["A"], continue_on_error := true }

/-- Filesystem with one directory `d` holding a CSV, and a plain file
`f`; exercises the directory checks. -/
def fsDirCheck : FileSystem :=
  { dirs := [("d", ["x.csv"])]
    files := [("f", .parseFail), ("d/x.csv", .ok unitTable)] }

/-- Directory with a good CSV, a malformed CSV and a non-CSV entry. -/
def fsMixed : FileSystem :=
  { dirs := [("raw", ["a.csv", "bad.csv", "n.txt"])]
    files := [("raw/a.csv", .ok unitTable), ("raw/bad.csv", .parseFail)] }

/-- A two-row table indexed `[0, 1]`. -/
def twoRowTable : Table :=
  { index := [0, 1], cols := [("A", [.intVal 1, .intVal 2])] }

/-- Directory with two loadable CSVs of two and one rows. -/
def fsconcat : FileSystem :=
  { dirs := [("raw", ["x.csv", "y.csv"])]
    files := [("raw/x.csv", .ok twoRowTable), ("raw/y.csv", .ok unitTable)] }

/-- Directory whose only entry is not a CSV. -/
def fsNoCsv : FileSystem :=
  { dirs := [("raw", ["note.txt"])], files := [] }

/-- Table whose target column `A` exists only under its pre-rename name
`Old`; target column `D` is reachable by nothing. -/
def renTable : Table :=
  { index := [0], cols := [("Old", [.intVal 1]), ("B", [.intVal 2])] }

/-- Two-column table containing an `Outcome` column. -/
def outcomeTable : Table :=
  { index := [0, 1],
    cols := [("F", [.intVal 9, .intVal 8]),
             ("Outcome", [.intVal 0, .intVal 1])] }

/-- Configuration document whose `columns.target` is a list holding a
non-string element. -/
def cfgIllTyped : Yaml :=
  .mapVal [("columns", .mapVal [("target", .listVal [.intVal 1])])]

/-- Configuration document whose `columns.target` is a string and whose
`columns.rename` is an integer: both container guards must fire. -/
def cfgWrongKinds : Yaml :=
  .mapVal [("columns", .mapVal [("target", .strVal "x"),
                                ("rename", .intVal 5)])]

/-! Helper lemmas. -/

/-- Filtering out the pairs keyed `o` does not change lookups at any
other key. -/
theorem lookup_filter_bne {β : Type} (c o : String) (h : ¬ c = o) :
    ∀ l : List (String × β),
      (l.filter (fun p => p.fst != o)).lookup c = l.lookup c := by
  intro l
  induction l with
  | nil => rfl
  | cons p l ih =>
      obtain ⟨k, v⟩ := p
      by_cases hk : k = o
      · subst hk
        have hck : (c == k) = false := beq_false_of_ne h
        simp [List.filter_cons, List.lookup_cons, hck, ih]
      · have hko : (k != o) = true := by simp [bne_iff_ne, hk]
        by_cases hck : c = k
        · subst hck
          simp [List.filter_cons, hko, List.lookup_cons]
        · have hck2 : (c == k) = false := beq_false_of_ne hck
          simp [List.filter_cons, hko, List.lookup_cons, hck2, ih]

/-- A single guarded drop keeps the row index. -/
theorem dropOne_index (t : Table) (c : String) :
    (dropOne t c).index = t.index := by
  unfold dropOne; split <;> rfl

/-- A single guarded drop of `c` does not change any other column. -/
theorem dropOne_lookup (t : Table) (c x : String) (h : ¬ x = c) :
    (dropOne t c).cols.lookup x = t.cols.lookup x := by
  unfold dropOne
  split
  · exact lookup_filter_bne x c h t.cols
  · rfl

/-- The drop loop keeps the row index. -/
theorem dropCols_index (drops : List String) :
    ∀ t : Table, (dropCols t drops).index = t.index := by
  induction drops with
  | nil => intro t; rfl
  | cons d ds ih =>
      intro t
      show (dropCols (dropOne t d) ds).index = t.index
      rw [ih, dropOne_index]

/-- The drop loop does not change columns outside the drop list. -/
theorem dropCols_lookup (x : String) :
    ∀ (drops : List String) (t : Table), x ∉ drops →
      (dropCols t drops).cols.lookup x = t.cols.lookup x := by
  intro drops
  induction drops with
  | nil => intro t _; rfl
  | cons d ds ih =>
      intro t hx
      have hxd : ¬ x = d := fun hh => hx (hh ▸ List.mem_cons_self d ds)
      have hxs : x ∉ ds := fun hh => hx (List.mem_cons_of_mem d hh)
      show (dropCols (dropOne t d) ds).cols.lookup x = t.cols.lookup x
      rw [ih (dropOne t d) hxs, dropOne_lookup t d x hxd]

/-- The rename step keeps the row index. -/
theorem renameStep_index (t : Table) (ren : List (String × String)) :
    (renameStep t ren).index = t.index := by
  unfold renameStep renameCols; split <;> rfl

/-- Looking up a key of a key-tagged map hits the tag's image. -/
theorem lookup_map_pair {β : Type} (f : String → β) :
    ∀ (l : List String) (c : String), c ∈ l →
      (l.map (fun x => (x, f x))).lookup c = some (f c) := by
  intro l
  induction l with
  | nil => intro c hc; cases hc
  | cons a l ih =>
      intro c hc
      by_cases hca : c = a
      · subst hca; simp [List.lookup_cons]
      · have hfalse : (c == a) = false := beq_false_of_ne hca
        have hcl : c ∈ l := by
          cases hc with
          | head => exact absurd rfl hca
          | tail _ hmem => exact hmem
        simp [List.map_cons, List.lookup_cons, hfalse, ih c hcl]

/-- Projecting the names of the pairs surviving a key filter equals
filtering the projected names. -/
theorem map_fst_filter_bne {β : Type} (o : String) :
    ∀ l : List (String × β),
      (l.filter (fun p => p.fst != o)).map Prod.fst =
        (l.map Prod.fst).filter (fun c => c != o) := by
  intro l
  induction l with
  | nil => rfl
  | cons p l ih =>
      obtain ⟨k, v⟩ := p
      by_cases hk : (k != o) = true
      · simp [List.filter_cons, hk, ih]
      · have hk2 : (k != o) = false := by simpa using hk
        simp [List.filter_cons, hk2, ih]

/-- The collection loop of `get_all_dataframes` equals filtering the
`.csv` entries and keeping the successful loads, in directory order. -/
theorem collect_foldl (fs : FileSystem) (dir : String) :
    ∀ (entries : List String) (acc : List Table),
      entries.foldl (collectStep fs dir) acc =
        acc ++ (entries.filter (fun f => strEndsWith f ".csv")).filterMap
          (fun f => (load_csv fs (joinPath dir f)).toOption) := by
  intro entries
  induction entries with
  | nil => intro acc; simp
  | cons e es ih =>
      intro acc
      by_cases he : strEndsWith e ".csv" = true
      · cases hl : load_csv fs (joinPath dir e) with
        | ok df =>
            have hstep : collectStep fs dir acc e = acc ++ [df] := by
              simp [collectStep, he, hl]
            rw [List.foldl_cons, hstep, ih]
            simp [List.filter_cons, he, List.filterMap_cons, hl,
              Except.toOption]
        | error err =>
            have hstep : collectStep fs dir acc e = acc := by
              simp [collectStep, he, hl]
            rw [List.foldl_cons, hstep, ih]
            simp [List.filter_cons, he, List.filterMap_cons, hl,
              Except.toOption]
      · have hstep : collectStep fs dir acc e = acc := by
          simp [collectStep, he]
        have he2 : strEndsWith e ".csv" = false := by simpa using he
        rw [List.foldl_cons, hstep, ih]
        simp [List.filter_cons, he2]

/-- The traversal loop of `Config.get` computes the dotted-path
resolution, falling back to the default exactly when resolution
fails. -/
theorem getLoop_eq :
    ∀ (ks : List String) (v dflt : Yaml),
      getLoop ks v dflt = (pathLookup v ks).getD dflt := by
  intro ks
  induction ks with
  | nil => intro v dflt; cases v <;> rfl
  | cons k ks ih =>
      intro v dflt
      cases v with
      | mapVal kvs =>
          cases hkv : kvs.lookup k with
          | none => simp [getLoop, pathLookup, hkv]
          | some w => cases w <;> simp [getLoop, pathLookup, hkv, ih]
      | null => rfl
      | boolVal b => rfl
      | intVal n => rfl
      | strVal s => rfl
      | listVal xs => rfl

/-! Claim theorems. -/

/-- C5: `read_named(filename, dir)` fails with `DirectoryNotFound`
(a `FileNotFoundError` tagged with the directory) when `dir` does not
exist, fails with `NotADirectory` — a failure distinct from the
directory-not-found one — when `dir` is a path to a file, and otherwise
delegates to `read_csv` on the joined path. -/
theorem read_named_dir_failures (fs : FileSystem) (filename dir : String) :
    (pathExists fs dir = false →
      get_dataframe fs filename dir =
        .error (.fileNotFoundError ("Directory not found: " ++ dir))) ∧
    (pathExists fs dir = true → isDir fs dir = false →
      get_dataframe fs filename dir =
        .error (.notADirectoryError ("Path is not a directory: " ++ dir))) ∧
    (isDir fs dir = true →
      get_dataframe fs filename dir = load_csv fs (joinPath dir filename)) ∧
    (∀ m m2, PyErr.fileNotFoundError m ≠ PyErr.notADirectoryError m2) := by
  refine ⟨?_, ?_, ?_, ?_⟩
  · intro h; simp [get_dataframe, h]
  · intro h1 h2; simp [get_dataframe, h1, h2]
  · intro h
    have h1 : pathExists fs dir = true := by
      simp only [isDir] at h
      simp [pathExists, h]
    simp [get_dataframe, h1, h]
  · intro m m2 hcontra; cases hcontra

/-- C5 witness: on a concrete filesystem, a missing directory, a file
used as a directory, and a real directory each take the stated branch. -/
theorem read_named_dir_failures_w :
    get_dataframe fsDirCheck "x.csv" "nope" =
      .error (.fileNotFoundError "Directory not found: nope") ∧
    get_dataframe fsDirCheck "x.csv" "f" =
      .error (.notADirectoryError "Path is not a directory: f") ∧
    get_dataframe fsDirCheck "x.csv" "d" =
      load_csv fsDirCheck (joinPath "d" "x.csv") :=
  ⟨(read_named_dir_failures fsDirCheck "x.csv" "nope").1 rfl,
   (read_named_dir_failures fsDirCheck "x.csv" "f").2.1 rfl rfl,
   (read_named_dir_failures fsDirCheck "x.csv" "d").2.2.1 rfl⟩

/-- C4: over any existing directory, `read_all_in_dir` returns (without
failing the call) exactly one table per `.csv` entry whose load
succeeds, in directory order; entries that fail to load are skipped. -/
theorem read_all_skips_bad_files (fs : FileSystem) (dir : String)
    (entries : List String) (h : fs.dirs.lookup dir = some entries) :
    get_all_dataframes fs dir =
      .ok ((entries.filter (fun f => strEndsWith f ".csv")).filterMap
        (fun f => (load_csv fs (joinPath dir f)).toOption)) := by
  simp only [get_all_dataframes, h]
  rw [collect_foldl fs dir entries []]
  simp

/-- C4 witness: a directory holding a good CSV, a malformed CSV and a
non-CSV entry yields exactly the one table that parsed. -/
theorem read_all_skips_bad_files_w :
    get_all_dataframes fsMixed "raw" = .ok [unitTable] := by
  rw [read_all_skips_bad_files fsMixed "raw" ["a.csv", "bad.csv", "n.txt"] rfl]
  rfl

/-- C6: when the loaded tables are empty the combination is absent
rather than a failure; otherwise `reset_index=True` yields the fresh row
index `0..N-1` with `N` the total row count of the loaded tables, and
`reset_index=False` concatenates the source tables' own index values
(which may therefore repeat). -/
theorem concat_index_spec (fs : FileSystem) (dir : String)
    (dfs : List Table) (h : get_all_dataframes fs dir = .ok dfs) :
    (dfs = [] → ∀ b, combine_dataframes fs dir b = .ok none) ∧
    (dfs ≠ [] → ∃ t, combine_dataframes fs dir true = .ok (some t) ∧
      t.index = List.range ((dfs.map Table.nrows).sum)) ∧
    (dfs ≠ [] → ∃ t, combine_dataframes fs dir false = .ok (some t) ∧
      t.index = (dfs.map Table.index).flatten) := by
  refine ⟨?_, ?_, ?_⟩
  · intro hnil b; subst hnil; simp [combine_dataframes, h]
  · intro hne
    refine ⟨concatTables dfs true, ?_, ?_⟩
    · simp [combine_dataframes, h, List.isEmpty_iff, hne]
    · simp [concatTables]
  · intro hne
    refine ⟨concatTables dfs false, ?_, ?_⟩
    · simp [combine_dataframes, h, List.isEmpty_iff, hne]
    · simp [concatTables]

/-- C6 witness: two loaded tables of two rows and one row give index
`[0, 1, 2]` when reset and the repeating `[0, 1, 0]` source indices
otherwise; a directory without CSVs combines to `none`. -/
theorem concat_index_spec_w :
    (∃ t, combine_dataframes fsconcat "raw" true = .ok (some t) ∧
      t.index = List.range (([twoRowTable, unitTable].map Table.nrows).sum)) ∧
    (∃ t, combine_dataframes fsconcat "raw" false = .ok (some t) ∧
      t.index = ([twoRowTable, unitTable].map Table.index).flatten) ∧
    combine_dataframes fsNoCsv "raw" true = .ok none :=
  ⟨(concat_index_spec fsconcat "raw" [twoRowTable, unitTable] rfl).2.1
      (by simp),
   (concat_index_spec fsconcat "raw" [twoRowTable, unitTable] rfl).2.2
      (by simp),
   (concat_index_spec fsNoCsv "raw" [] rfl).1 rfl true⟩

/-- C1 (failing scenario): over a raw directory of three CSVs of which
`b.csv` is malformed, with `continue_on_error = True`, the load of
`b.csv` fails, yet `process_dataset` swallows that failure and returns
normally, so the batch summary reports 3 succeeded and 0 failed — not
the 2 succeeded / 1 failed the claim states. -/
theorem batch_summary_at_failing_input :
    load_csv fsBatch "raw/b.csv" =
      .error (.parserError "Parsing error in file: raw/b.csv") ∧
    process_dataset fsBatch cfgBatch "b.csv" = .ok () ∧
    process_all_datasets fsBatch cfgBatch = .ok (some (3, 0)) :=
  ⟨rfl, rfl, rfl⟩

/-- C8: `Config.get(key, default)` equals resolving the dotted path
through the nested mappings and substituting the default exactly when
resolution stops early (a segment absent — including stored as YAML
null, which `dict.get` cannot distinguish — or a non-mapping indexed
further). -/
theorem config_get_path_semantics (cfg : Yaml) (key : String)
    (dflt : Yaml) :
    configGet cfg key dflt = (pathLookup cfg (splitDots key)).getD dflt :=
  getLoop_eq (splitDots key) cfg dflt

/-- C2: whenever `standardize` succeeds, the output's column sequence is
exactly `target_columns` in order and membership, every retained
column's values (and the row index) are unchanged from the
post-drop/rename table — hence, with no renames, unchanged from the
source for columns outside the drop list; in particular the spec's
concrete example `{A:[1,2], B:[3,4], C:[5,6]}` with `drop=["C"]`,
`target=["B","A"]` yields `{B:[3,4], A:[1,2]}`. -/
theorem standardize_ok_schema (t : Table) (drops : List String)
    (ren : List (String × String)) (target : List String) (res : Table)
    (h : standardize_columns t drops ren target = .ok res) :
    res.cols.map Prod.fst = target ∧
    (∀ c ∈ target,
      res.cols.lookup c =
        (renameStep (dropCols t drops) ren).cols.lookup c) ∧
    (ren = [] → ∀ c ∈ target, c ∉ drops →
      res.cols.lookup c = t.cols.lookup c) ∧
    res.index = t.index ∧
    standardize_columns exTable ["C"] [] ["B", "A"] =
      .ok { index := [0, 1]
            cols := [("B", [.intVal 3, .intVal 4]),
                     ("A", [.intVal 1, .intVal 2])] } := by
  simp only [standardize_columns] at h
  set t2 := renameStep (dropCols t drops) ren with ht2
  by_cases hm :
      (target.filter (fun c => (t2.cols.lookup c).isNone)).isEmpty = true
  case neg =>
    rw [if_neg hm] at h
    cases h
  case pos =>
  rw [if_pos hm] at h
  have hres : res = selectCols t2 target := by
    injection h with h2
    exact h2.symm
  subst hres
  have hpres : ∀ c ∈ target, (t2.cols.lookup c).isSome = true := by
    intro c hc
    have hno := List.filter_eq_nil_iff.mp (List.isEmpty_iff.mp hm) c hc
    cases hx : t2.cols.lookup c with
    | none => exact absurd (by simp [hx]) hno
    | some _ => simp
  have hsel : ∀ c ∈ target,
      (selectCols t2 target).cols.lookup c = t2.cols.lookup c := by
    intro c hc
    have hmap :=
      lookup_map_pair (fun c => (t2.cols.lookup c).getD []) target c hc
    have hcols : (selectCols t2 target).cols =
        target.map (fun c => (c, (t2.cols.lookup c).getD [])) := rfl
    rw [hcols, hmap]
    have := hpres c hc
    cases hx : t2.cols.lookup c with
    | none => rw [hx] at this; cases this
    | some vs => simp [hx]
  refine ⟨?_, hsel, ?_, ?_, rfl⟩
  · show (target.map (fun c => (c, (t2.cols.lookup c).getD []))).map
        Prod.fst = target
    rw [List.map_map]
    have hcomp :
        (Prod.fst ∘ fun c => (c, (t2.cols.lookup c).getD [])) = id := rfl
    rw [hcomp, List.map_id]
  · intro hren c hc hcd
    subst hren
    rw [hsel c hc, ht2]
    have hid : renameStep (dropCols t drops) [] = dropCols t drops := rfl
    rw [hid]
    exact dropCols_lookup c drops t hcd
  · show (selectCols t2 target).index = t.index
    have hidx : (selectCols t2 target).index = t2.index := rfl
    rw [hidx, ht2, renameStep_index, dropCols_index]

/-- C2 witness: the spec's concrete table under `drop=["C"]`,
`rename={}`, `target=["B","A"]` has output columns exactly
`["B", "A"]`. -/
theorem standardize_ok_schema_w :
    ({ index := [0, 1]
       cols := [("B", [.intVal 3, .intVal 4]),
                ("A", [.intVal 1, .intVal 2])] } : Table).cols.map
        Prod.fst = ["B", "A"] :=
  (standardize_ok_schema exTable ["C"] [] ["B", "A"] _ rfl).1

/-- C3: `standardize` fails (and it only ever fails with
`MissingColumns`) precisely when, after the guarded drops and then the
renames, some entry of `target_columns` is absent from the current
columns — so a target column produced by a rename counts as present —
and the reported missing set holds exactly the absent target entries. -/
theorem standardize_missing_iff (t : Table) (drops : List String)
    (ren : List (String × String)) (target : List String) :
    ((∃ m, standardize_columns t drops ren target =
        .error (.missingColumns m)) ↔
      ∃ c ∈ target,
        (renameStep (dropCols t drops) ren).cols.lookup c = none) ∧
    (∀ m, standardize_columns t drops ren target =
        .error (.missingColumns m) →
      ∀ c, c ∈ m ↔ (c ∈ target ∧
        (renameStep (dropCols t drops) ren).cols.lookup c = none)) ∧
    (∀ e, standardize_columns t drops ren target = .error e →
      ∃ m, e = .missingColumns m) := by
  simp only [standardize_columns]
  set t2 := renameStep (dropCols t drops) ren with ht2
  by_cases hm :
      (target.filter (fun c => (t2.cols.lookup c).isNone)).isEmpty = true
  · simp only [if_pos hm]
    refine ⟨?_, ?_, ?_⟩
    · constructor
      · rintro ⟨m, hmm⟩
        cases hmm
      · rintro ⟨c, hc, hnone⟩
        have hno := List.filter_eq_nil_iff.mp (List.isEmpty_iff.mp hm) c hc
        exact absurd (by simp [hnone]) hno
    · intro m hmm
      cases hmm
    · intro e hmm
      cases hmm
  · simp only [if_neg hm]
    have hfil : ∀ c,
        c ∈ target.filter (fun c => (t2.cols.lookup c).isNone) ↔
          (c ∈ target ∧ t2.cols.lookup c = none) := by
      intro c
      rw [List.mem_filter]
      simp [Option.isNone_iff_eq_none]
    refine ⟨?_, ?_, ?_⟩
    · constructor
      · intro _
        have hne :
            target.filter (fun c => (t2.cols.lookup c).isNone) ≠ [] := by
          intro hcontra
          rw [hcontra] at hm
          exact hm rfl
        obtain ⟨c, hc⟩ := List.exists_mem_of_ne_nil _ hne
        exact ⟨c, (hfil c).mp hc |>.1, (hfil c).mp hc |>.2⟩
      · intro _
        exact ⟨_, rfl⟩
    · intro m hmm c
      injection hmm with h1
      injection h1 with h2
      rw [← h2]
      exact hfil c
    · intro e hmm
      injection hmm with h1
      exact ⟨_, h1.symm⟩

/-- C3 witness: with the table `{Old:[1], B:[2]}`, no drops, rename
`Old → A` and target `["A", "D"]`, standardize fails; the theorem yields
the absent target entry, and `D` is in the reported missing set exactly
because it is a target entry absent after drop+rename, while `A`
(produced by the rename) is not reported. -/
theorem standardize_missing_iff_w :
    (∃ c ∈ ["A", "D"],
      (renameStep (dropCols renTable []) [("Old", "A")]).cols.lookup c =
        none) ∧
    ("D" ∈ (["D"] : List String) ↔
      ("D" ∈ ["A", "D"] ∧
        (renameStep (dropCols renTable []) [("Old", "A")]).cols.lookup "D" =
          none)) ∧
    ("A" ∈ (["D"] : List String) ↔
      ("A" ∈ ["A", "D"] ∧
        (renameStep (dropCols renTable []) [("Old", "A")]).cols.lookup "A" =
          none)) :=
  ⟨(standardize_missing_iff renTable [] [("Old", "A")] ["A", "D"]).1.mp
      ⟨["D"], rfl⟩,
   (standardize_missing_iff renTable [] [("Old", "A")] ["A", "D"]).2.1
      ["D"] rfl "D",
   (standardize_missing_iff renTable [] [("Old", "A")] ["A", "D"]).2.1
      ["D"] rfl "A"⟩

/-- C9: the statement-level run of `standardize_columns` never rebinds
the caller's `df` — the input table is unchanged whether the run
succeeds or fails with `MissingColumns` — and its result agrees with the
pure function. -/
theorem standardize_input_unchanged (input : Table) (drops : List String)
    (ren : List (String × String)) (target : List String) :
    (standardizeRun input drops ren target).1.df = input ∧
    (standardizeRun input drops ren target).2 =
      standardize_columns input drops ren target := by
  cases hm : (target.filter (fun c =>
      ((renameStep (dropCols input drops) ren).cols.lookup c).isNone)).isEmpty <;>
    simp [standardizeRun, standardize_columns, hm]

/-- C7: `split_features_target` passes an absent table through as
absent; on a table whose `Outcome` column holds `y`, it returns the
table of all other columns (order, values and row index unchanged)
paired with `y`; and on a table without an `Outcome` column it
propagates the column-lookup `KeyError`. -/
theorem split_features_target_spec (t : Table) (y : List Cell)
    (hy : t.cols.lookup "Outcome" = some y) :
    get_features_target none = .ok none ∧
    (∃ x, get_features_target (some t) = .ok (some (x, y)) ∧
      x.index = t.index ∧
      x.cols.map Prod.fst = t.colNames.filter (fun c => c != "Outcome") ∧
      ∀ c, ¬ c = "Outcome" → x.cols.lookup c = t.cols.lookup c) ∧
    (∀ t2 : Table, t2.cols.lookup "Outcome" = none →
      get_features_target (some t2) = .error (.keyError "Outcome")) := by
  refine ⟨rfl, ?_, ?_⟩
  · refine ⟨{ index := t.index
              cols := t.cols.filter (fun p => p.fst != "Outcome") },
      ?_, rfl, ?_, ?_⟩
    · simp [get_features_target, dropStrict, getItem, hy]
    · exact map_fst_filter_bne "Outcome" t.cols
    · intro c hc
      exact lookup_filter_bne c "Outcome" hc t.cols
  · intro t2 h0
    simp [get_features_target, dropStrict, h0]

/-- C7 witness: on the concrete table `{F:[9,8], Outcome:[0,1]}` the
split returns the `F`-only features and the outcome values in row
order; the absent table passes through; a table without `Outcome`
raises the lookup failure. -/
theorem split_features_target_spec_w :
    get_features_target none = .ok none ∧
    (∃ x, get_features_target (some outcomeTable) =
        .ok (some (x, [Cell.intVal 0, Cell.intVal 1])) ∧
      x.index = outcomeTable.index ∧
      x.cols.map Prod.fst =
        outcomeTable.colNames.filter (fun c => c != "Outcome") ∧
      ∀ c, ¬ c = "Outcome" →
        x.cols.lookup c = outcomeTable.cols.lookup c) ∧
    get_features_target (some unitTable) = .error (.keyError "Outcome") :=
  ⟨(split_features_target_spec outcomeTable [Cell.intVal 0, Cell.intVal 1]
      rfl).1,
   (split_features_target_spec outcomeTable [Cell.intVal 0, Cell.intVal 1]
      rfl).2.1,
   (split_features_target_spec outcomeTable [Cell.intVal 0, Cell.intVal 1]
      rfl).2.2 unitTable rfl⟩

/-- C10 counterexample: under the malformed configuration whose
`columns.target` is the list `[1]`, the accessor returns that list
as-is, so its result is not a list of strings — an ill-typed value for
a `List[str]` accessor — refuting the claim that the accessors never
yield an ill-typed value. -/
theorem target_columns_illtyped_value :
    target_columns cfgIllTyped = [Yaml.intVal 1] ∧
    (target_columns cfgIllTyped).all isStrY = false :=
  ⟨rfl, rfl⟩

/-- C10 (amended): the typed accessors guard only the container kind —
`target_columns` and `columns_to_drop` return `[]` whenever the stored
value is not a list and return any stored list unchanged (so ill-typed
elements pass through), and `column_rename_map` returns `{}` whenever
the stored value is not a mapping; none of them can raise. -/
theorem config_accessors_kind_guard (cfg : Yaml) :
    (isListY (configGet cfg "columns.target" (.listVal [])) = false →
      target_columns cfg = []) ∧
    (∀ xs, configGet cfg "columns.target" (.listVal []) = .listVal xs →
      target_columns cfg = xs) ∧
    (isListY (configGet cfg "columns.drop" (.listVal [])) = false →
      columns_to_drop cfg = []) ∧
    (isMapY (configGet cfg "columns.rename" (.mapVal [])) = false →
      column_rename_map cfg = []) := by
  refine ⟨?_, ?_, ?_, ?_⟩
  · intro h
    unfold target_columns
    cases hv : configGet cfg "columns.target" (.listVal []) <;>
      simp_all [isListY]
  · intro xs hv
    unfold target_columns
    rw [hv]
  · intro h
    unfold columns_to_drop
    cases hv : configGet cfg "columns.drop" (.listVal []) <;>
      simp_all [isListY]
  · intro h
    unfold column_rename_map
    cases hv : configGet cfg "columns.rename" (.mapVal []) <;>
      simp_all [isMapY]

/-- C10 witness: when `columns.target` stores a string and
`columns.rename` stores an integer, both accessors return their empty
fallbacks. -/
theorem config_accessors_kind_guard_w :
    target_columns cfgWrongKinds = [] ∧
    column_rename_map cfgWrongKinds = [] :=
  ⟨(config_accessors_kind_guard cfgWrongKinds).1 rfl,
   (config_accessors_kind_guard cfgWrongKinds).2.2.2 rfl⟩
